import Mathlib

/-!
Verification of the service-registry / service-factory core of a Node.js
microservice template.  The JavaScript sources are embedded shallowly:

* `ServiceRegistry` (src/services/ServiceRegistry.js) becomes pure functions
  over a list of `ServiceEntry` values (the insertion-ordered value view of
  the JS object used as the store); `Date.now()` becomes an explicit `now`
  argument of type `Int`.
* `ServiceFactory` / `BaseService` constructors (src/services/ServiceFactory.js,
  src/services/BaseService.js) become pure functions; JS object fields that may
  be absent or `undefined` are modelled with nested `Option`s, and the
  `...options` spread is modelled field by field.
* The CLI argument loop of src/index.js becomes a fold over the argument list.
* `JSON.stringify` / `JSON.parse`, used by `publishToQueue` and
  `consumeFromQueue` in src/services/BaseService.js, are modelled by an
  executable encoder and recursive-descent decoder over a `Json` inductive
  (numbers restricted to integers; no unicode escapes).
-/

/-! ## Registry store (src/services/ServiceRegistry.js) -/

/-- A registered service, as built by `ServiceRegistry.register`
(src/services/ServiceRegistry.js lines 34-42). -/
structure ServiceEntry where
  name : String
  host : String
  port : Nat
  url : String
  timestamp : Int
  metadata : List (String × String)
  key : String
deriving Repr, DecidableEq

/-- `_generateKey(name, host, port)` (ServiceRegistry.js line 99). -/
def generateKey (name host : String) (port : Nat) : String :=
  name ++ ":" ++ host ++ ":" ++ toString port

/-- `register(name, host, port, metadata)` (ServiceRegistry.js lines 17-48).
The store is the list of entries in insertion order; a thrown error is an
`Except.error` paired with the untouched store. -/
def register (store : List ServiceEntry) (name host : String) (port : Nat)
    (metadata : List (String × String)) (now : Int) :
    List ServiceEntry × Except String ServiceEntry :=
  if name = "" ∨ host = "" ∨ port = 0 then
    (store, Except.error "Service registration requires name, host, and port")
  else
    let key := generateKey name host port
    match store.find? (fun e => e.key == key) with
    | some e =>
      (store.map (fun x => if x.key == key then { x with timestamp := now } else x),
       Except.ok { e with timestamp := now })
    | none =>
      let service : ServiceEntry :=
        { name := name, host := host, port := port,
          url := "http://" ++ host ++ ":" ++ toString port,
          timestamp := now, metadata := metadata, key := key }
      (store ++ [service], Except.ok service)

/-- `unregister(name, host, port)` (ServiceRegistry.js lines 51-61). -/
def unregister (store : List ServiceEntry) (name host : String) (port : Nat) :
    List ServiceEntry × Bool :=
  let key := generateKey name host port
  if store.any (fun e => e.key == key) then
    (store.filter (fun e => !(e.key == key)), true)
  else
    (store, false)

/-- `findAll(name)` (ServiceRegistry.js lines 63-78). -/
def findAll (store : List ServiceEntry) (name : String) (now timeout : Int) :
    List ServiceEntry :=
  store.filter (fun service =>
    if now - service.timestamp > timeout then false else service.name == name)

/-- `find(name)` (ServiceRegistry.js lines 81-90); the random draw
`Math.floor(Math.random() * services.length)` ranges over `[0, length)` and is
modelled by `r % length` for an arbitrary `r`. -/
def find (store : List ServiceEntry) (name : String) (now timeout : Int)
    (r : Nat) : Option ServiceEntry :=
  let services := findAll store name now timeout
  if services.length = 0 then none
  else services[r % services.length]?

/-- `getAll()` (ServiceRegistry.js lines 93-95): raw snapshot, no expiry filter. -/
def getAll (store : List ServiceEntry) : List ServiceEntry :=
  store

/-- One pass of the cleanup task installed by `_startCleanupInterval`
(ServiceRegistry.js lines 103-121): delete every entry whose age exceeds the
timeout. -/
def sweep (store : List ServiceEntry) (now timeout : Int) : List ServiceEntry :=
  store.filter (fun service => !(decide (now - service.timestamp > timeout)))

/-- `options.timeout || 30000` (ServiceRegistry.js line 9). -/
def resolveTimeout (timeout : Option Int) : Int :=
  match timeout with
  | some v => if v = 0 then 30000 else v
  | none => 30000

/-- `options.cleanupInterval || 300000` (ServiceRegistry.js line 10). -/
def resolveCleanupInterval (interval : Option Int) : Int :=
  match interval with
  | some v => if v = 0 then 300000 else v
  | none => 300000

/-- Number of stored entries generating a given key. -/
def countKey (store : List ServiceEntry) (key : String) : Nat :=
  (store.filter (fun e => e.key == key)).length

/-- The JS store is an object keyed by the generated key, so the value view
never holds two entries with the same key. -/
def NodupKeys (store : List ServiceEntry) : Prop :=
  (store.map (fun e => e.key)).Nodup

instance (store : List ServiceEntry) : Decidable (NodupKeys store) := by
  unfold NodupKeys; infer_instance

/-! ## Service factory (src/services/ServiceFactory.js) and the BaseService
constructor (src/services/BaseService.js lines 14-38)

JS object fields are modelled with nested `Option`s: in a field of type
`Option (Option A)`, `none` is an absent key, `some none` a key present with
value `undefined`, and `some (some a)` a real value.  `x || d` on numbers and
strings is modelled by `jsOrNat` / `jsOrStr` (`0`, `""` and `undefined` are
falsy). -/

/-- The options object passed to `createService` (only the keys the factory
reads are modelled; `{}` is the empty object). -/
structure ServiceOptionsIn where
  port : Option (Option Nat) := none
  env : Option (Option String) := none
  configPath : Option (Option String) := none
deriving Repr, DecidableEq

/-- JS `x || d` for a possibly-`undefined` number `x`. -/
def jsOrNat (v : Option Nat) (d : Nat) : Nat :=
  match v with
  | some n => if n = 0 then d else n
  | none => d

/-- JS `x || d` for a possibly-`undefined` string `x`. -/
def jsOrStr (v : Option String) (d : String) : String :=
  match v with
  | some s => if s = "" then d else s
  | none => d

/-- `this.serviceTypes` (ServiceFactory.js lines 24-29). -/
def serviceTypes : List (String × String) :=
  [("api-gateway", "./api-gateway"), ("api", "./api"), ("otp", "./otp")]

/-- The `portMap` of `_getDefaultPort` (ServiceFactory.js lines 118-123). -/
def portMap : List (String × Nat) :=
  [("api-gateway", 3000), ("api", 3001), ("otp", 3002)]

/-- `_getDefaultPort(type)` (ServiceFactory.js lines 117-126):
`portMap[type] || 3000`.  Faithful at the own keys of the `portMap` literal
and at keys absent from the whole prototype chain; for an `Object.prototype`
name like `toString` the JS lookup would yield the inherited function, but
`createService` always dies at `require` before such a port value becomes
observable, so no claim evaluates this model there. -/
def getDefaultPort (type : String) : Nat :=
  jsOrNat (portMap.lookup type) 3000

/-- The own property names of `Object.prototype`, the prototype of the
`serviceTypes` and `portMap` object literals: reading any of these keys on a
plain object yields an inherited function (or, for `__proto__`, the prototype
object) — a truthy, non-string value. -/
def objectProtoProps : List String :=
  ["constructor", "hasOwnProperty", "isPrototypeOf", "propertyIsEnumerable",
   "toLocaleString", "toString", "valueOf", "__defineGetter__",
   "__defineSetter__", "__lookupGetter__", "__lookupSetter__", "__proto__"]

/-- JS truthiness of `this.serviceTypes[type]` (the `!this.serviceTypes[type]`
guard, ServiceFactory.js line 47): an own key of the literal is truthy, and so
is any property name inherited from `Object.prototype`. -/
def serviceTypesTruthy (type : String) : Bool :=
  (serviceTypes.lookup type).isSome || objectProtoProps.contains type

/-- `require(this.serviceTypes[type])` (ServiceFactory.js line 70) when the
lookup hit an inherited `Object.prototype` member: the value is a function or
object, not a module-id string, so Node's `require` throws a TypeError before
any instance is created or stored.  The runtime's exact wording is not
repository code; the model fixes only a message that is provably not the
UnsupportedType error. -/
def requireTypeError (type : String) : String :=
  "TypeError: the id argument of require must be of type string: " ++ type

/-- `_getConfigPath(type, env = 'development')` (ServiceFactory.js lines
135-137), without the `process.cwd()` prefix; the JS default parameter applies
when the argument is `undefined`. -/
def getConfigPath (type : String) (env : Option String) : String :=
  "config/" ++ env.getD "development" ++ "-service-config.json"

/-- The `serviceOptions` object built in `createService` (ServiceFactory.js
lines 58-67), field by field.  `connection`/`channel` are collapsed into a
single presence flag, and `registry` is omitted (it is the factory's registry
in every call). -/
structure ServiceOptions where
  name : String
  port : Option Nat
  env : Option String
  configPath : Option String
  channel : Bool
deriving Repr, DecidableEq

/-- Builds `serviceOptions` (ServiceFactory.js lines 58-67): the computed
fields come first and the trailing `...options` spread overwrites every field
whose key is present in `options`. -/
def buildServiceOptions (type : String) (options : ServiceOptionsIn)
    (channel : Bool) (nodeEnv : Option String) : ServiceOptions :=
  let computedPort := jsOrNat options.port.join (getDefaultPort type)
  let computedEnv := jsOrStr options.env.join (jsOrStr nodeEnv "development")
  let computedConfigPath :=
    jsOrStr options.configPath.join (getConfigPath type options.env.join)
  { name := type
    port := match options.port with
            | none => some computedPort
            | some raw => raw
    env := match options.env with
           | none => some computedEnv
           | some raw => raw
    configPath := match options.configPath with
                  | none => some computedConfigPath
                  | some raw => raw
    channel := channel }

/-- The state of a constructed `BaseService` (BaseService.js lines 14-38),
restricted to the fields the claims mention. -/
structure BaseService where
  name : String
  port : Nat
  env : String
  configPath : Option String
  channel : Bool
  isRunning : Bool
deriving Repr, DecidableEq

/-- The `BaseService` constructor (BaseService.js lines 14-38):
`this.name = options.name || 'unknown-service'`, `this.port = options.port ||
3000`, `this.env = options.env || 'development'`, `this.isRunning = false`. -/
def mkBaseService (options : ServiceOptions) : BaseService :=
  { name := jsOrStr (some options.name) "unknown-service"
    port := jsOrNat options.port 3000
    env := jsOrStr options.env "development"
    configPath := options.configPath
    channel := options.channel
    isRunning := false }

/-- `createService(type, options)` (ServiceFactory.js lines 40-84).  The
outcome of `_initializeMessageBroker` is an explicit argument: for
`api-gateway` the broker is skipped (`null`); otherwise `brokerConnect` is
`ok channel` or a connection error, which propagates.  The
`!this.serviceTypes[type]` guard is the JS truthiness test
`serviceTypesTruthy`, which an `Object.prototype` name passes without being an
own key: such a call survives the check, runs broker init, and then dies at
`require` on the inherited non-string value.  (The source also builds the
`serviceOptions` object before that `require` throws; the model skips building
it on this path since the value is discarded unobserved.)  The instance table
is the association list `services` keyed by the generated id
`type + '-' + Date.now()`. -/
def createService (services : List (String × BaseService)) (type : String)
    (options : ServiceOptionsIn) (brokerConnect : Except String Bool)
    (nodeEnv : Option String) (now : Int) :
    List (String × BaseService) × Except String BaseService :=
  if type = "" then
    (services, Except.error "Service type is required")
  else if serviceTypesTruthy type = false then
    (services, Except.error ("Unsupported service type: " ++ type))
  else
    match (if type = "api-gateway" then Except.ok false else brokerConnect) with
    | Except.error e => (services, Except.error e)
    | Except.ok channel =>
      match serviceTypes.lookup type with
      | none => (services, Except.error (requireTypeError type))
      | some _ =>
        let serviceId := type ++ "-" ++ toString now
        let service := mkBaseService (buildServiceOptions type options channel nodeEnv)
        (services ++ [(serviceId, service)], Except.ok service)

/-- `getAllServices()` (ServiceFactory.js lines 99-101): returns the table. -/
def getAllServices (services : List (String × BaseService)) :
    List (String × BaseService) :=
  services

/-! ## CLI entry point (src/index.js lines 8-47) -/

/-- The mutable `serviceName` / `port` / `env` variables of src/index.js. -/
structure CliArgs where
  serviceName : Option String
  port : Option Nat
  env : String
deriving Repr, DecidableEq

/-- JS `arg.startsWith(pre)`, on the character list (the arguments are plain
ASCII flags). -/
def strStartsWith (s pre : String) : Bool :=
  pre.data.isPrefixOf s.data

/-- JS `arg.substring(n)` on the character list. -/
def strDrop (s : String) (n : Nat) : String :=
  String.mk (s.data.drop n)

/-- JS `s.toLowerCase()` on the character list. -/
def strToLower (s : String) : String :=
  String.mk (s.data.map Char.toLower)

/-- One iteration of the `args.forEach` loop (index.js lines 21-27): only
`-s=` and `-e=` are recognised; every other flag, including `-p=`, is
ignored. -/
def parseArg (acc : CliArgs) (arg : String) : CliArgs :=
  if strStartsWith arg "-s=" then
    { acc with serviceName := some (strToLower (strDrop arg 3)) }
  else if strStartsWith arg "-e=" then
    { acc with env := strToLower (strDrop arg 3) }
  else acc

/-- The whole argument loop, starting from the initial variable values
(`serviceName` and `port` undefined, `env = 'development'`). -/
def parseArgs (args : List String) : CliArgs :=
  args.foldl parseArg { serviceName := none, port := none, env := "development" }

/-- The early-exit logic of index.js (lines 11-14 and 29-32): fewer than one
argument, or a falsy `serviceName` after the loop, exits with status 1. -/
def cliMain (args : List String) : Except Nat CliArgs :=
  if args.length < 1 then Except.error 1
  else
    let parsed := parseArgs args
    match parsed.serviceName with
    | none => Except.error 1
    | some s => if s = "" then Except.error 1 else Except.ok parsed

/-- The options object `{ port, env }` that `main` passes to `createService`
(index.js lines 44-47): both keys are present, `port` possibly undefined. -/
def mainOptions (parsed : CliArgs) : ServiceOptionsIn :=
  { port := some parsed.port, env := some (some parsed.env), configPath := none }

/-! ## Message payloads: `JSON.stringify` / `JSON.parse`
(used by `publishToQueue`, BaseService.js line 205, and by the consumer
callback of `consumeFromQueue`, BaseService.js lines 239-254)

The JSON value space is modelled with numbers restricted to integers and
string escapes restricted to the common single-character escapes (no `\uXXXX`);
the encoder emits the compact form `JSON.stringify` produces and the decoder is
a recursive-descent parser with an explicit fuel argument. -/

mutual
inductive Json where
  | null : Json
  | bool : Bool → Json
  | num : Int → Json
  | str : String → Json
  | arr : JsonArr → Json
  | obj : JsonObj → Json
deriving DecidableEq
inductive JsonArr where
  | nil : JsonArr
  | cons : Json → JsonArr → JsonArr
deriving DecidableEq
inductive JsonObj where
  | nil : JsonObj
  | cons : String → Json → JsonObj → JsonObj
deriving DecidableEq
end

def lbrace : Char := Char.ofNat 123

def rbrace : Char := Char.ofNat 125

/-- String escaping as in `JSON.stringify`. -/
def escapeChar (c : Char) : List Char :=
  if c = '\"' then ['\\', '\"']
  else if c = '\\' then ['\\', '\\']
  else if c = '\n' then ['\\', 'n']
  else if c = '\r' then ['\\', 'r']
  else if c = '\t' then ['\\', 't']
  else [c]

def escapeList : List Char → List Char
  | [] => []
  | c :: cs => escapeChar c ++ escapeList cs

def encodeString (s : String) : List Char :=
  '\"' :: (escapeList s.data ++ ['\"'])

def digitChar (n : Nat) : Char := Char.ofNat (48 + n)

def natDigitsAux : Nat → Nat → List Char
  | 0, _ => []
  | fuel + 1, n =>
    if n < 10 then [digitChar n]
    else natDigitsAux fuel (n / 10) ++ [digitChar (n % 10)]

def natDigits (n : Nat) : List Char :=
  natDigitsAux (n + 1) n

def encodeInt (n : Int) : List Char :=
  if n < 0 then '-' :: natDigits n.natAbs else natDigits n.toNat

mutual
def encodeJson : Json → List Char
  | Json.null => ['n', 'u', 'l', 'l']
  | Json.bool true => ['t', 'r', 'u', 'e']
  | Json.bool false => ['f', 'a', 'l', 's', 'e']
  | Json.num n => encodeInt n
  | Json.str s => encodeString s
  | Json.arr a => '[' :: (encodeArr a ++ [']'])
  | Json.obj o => lbrace :: (encodeObj o ++ [rbrace])
def encodeArr : JsonArr → List Char
  | JsonArr.nil => []
  | JsonArr.cons j JsonArr.nil => encodeJson j
  | JsonArr.cons j (JsonArr.cons j2 rest) =>
    encodeJson j ++ ',' :: encodeArr (JsonArr.cons j2 rest)
def encodeObj : JsonObj → List Char
  | JsonObj.nil => []
  | JsonObj.cons k v JsonObj.nil => encodeString k ++ ':' :: encodeJson v
  | JsonObj.cons k v (JsonObj.cons k2 v2 rest) =>
    encodeString k ++ ':' :: encodeJson v ++ ',' :: encodeObj (JsonObj.cons k2 v2 rest)
end

def isDigitChar (c : Char) : Bool :=
  48 ≤ c.toNat && c.toNat ≤ 57

def unescapeChar (c : Char) : Option Char :=
  if c = '\"' then some '\"'
  else if c = '\\' then some '\\'
  else if c = '/' then some '/'
  else if c = 'n' then some '\n'
  else if c = 'r' then some '\r'
  else if c = 't' then some '\t'
  else if c = 'b' then some (Char.ofNat 8)
  else if c = 'f' then some (Char.ofNat 12)
  else none

def parseStrChars : Nat → List Char → Option (List Char × List Char)
  | 0, _ => none
  | _ + 1, [] => none
  | fuel + 1, c :: cs =>
    if c = '\"' then some ([], cs)
    else if c = '\\' then
      match cs with
      | [] => none
      | e :: cs2 =>
        match unescapeChar e with
        | none => none
        | some u =>
          match parseStrChars fuel cs2 with
          | none => none
          | some (chars, rest) => some (u :: chars, rest)
    else
      match parseStrChars fuel cs with
      | none => none
      | some (chars, rest) => some (c :: chars, rest)

def parseStringRest (cs : List Char) : Option (String × List Char) :=
  match parseStrChars (cs.length + 1) cs with
  | some (chars, rest) => some (String.mk chars, rest)
  | none => none

def parseDigits : List Char → Nat → Nat × List Char
  | [], acc => (acc, [])
  | c :: cs, acc =>
    if isDigitChar c then parseDigits cs (acc * 10 + (c.toNat - 48))
    else (acc, c :: cs)

def parseNum (cs : List Char) : Option (Nat × List Char) :=
  match cs with
  | [] => none
  | c :: _ => if isDigitChar c then some (parseDigits cs 0) else none

mutual
def parseVal : Nat → List Char → Option (Json × List Char)
  | 0, _ => none
  | fuel + 1, cs =>
    match cs with
    | [] => none
    | c :: rest =>
      if c = 'n' then
        match rest with
        | 'u' :: 'l' :: 'l' :: rest2 => some (Json.null, rest2)
        | _ => none
      else if c = 't' then
        match rest with
        | 'r' :: 'u' :: 'e' :: rest2 => some (Json.bool true, rest2)
        | _ => none
      else if c = 'f' then
        match rest with
        | 'a' :: 'l' :: 's' :: 'e' :: rest2 => some (Json.bool false, rest2)
        | _ => none
      else if c = '\"' then
        match parseStringRest rest with
        | some (s, rest2) => some (Json.str s, rest2)
        | none => none
      else if c = '-' then
        match parseNum rest with
        | some (n, rest2) => some (Json.num (-(n : Int)), rest2)
        | none => none
      else if isDigitChar c then
        match parseNum (c :: rest) with
        | some (n, rest2) => some (Json.num (Int.ofNat n), rest2)
        | none => none
      else if c = '[' then
        match rest with
        | [] => none
        | r :: rest2 =>
          if r = ']' then some (Json.arr JsonArr.nil, rest2)
          else
            match parseArrItems fuel (r :: rest2) with
            | some (a, rest3) => some (Json.arr a, rest3)
            | none => none
      else if c = lbrace then
        match rest with
        | [] => none
        | r :: rest2 =>
          if r = rbrace then some (Json.obj JsonObj.nil, rest2)
          else
            match parseObjItems fuel (r :: rest2) with
            | some (o, rest3) => some (Json.obj o, rest3)
            | none => none
      else none
def parseArrItems : Nat → List Char → Option (JsonArr × List Char)
  | 0, _ => none
  | fuel + 1, cs =>
    match parseVal fuel cs with
    | none => none
    | some (j, rest) =>
      match rest with
      | [] => none
      | r :: rest2 =>
        if r = ',' then
          match parseArrItems fuel rest2 with
          | some (a, rest3) => some (JsonArr.cons j a, rest3)
          | none => none
        else if r = ']' then some (JsonArr.cons j JsonArr.nil, rest2)
        else none
def parseObjItems : Nat → List Char → Option (JsonObj × List Char)
  | 0, _ => none
  | fuel + 1, cs =>
    match cs with
    | [] => none
    | c :: rest =>
      if c = '\"' then
        match parseStringRest rest with
        | none => none
        | some (k, rest2) =>
          match rest2 with
          | ':' :: rest3 =>
            match parseVal fuel rest3 with
            | none => none
            | some (v, rest4) =>
              match rest4 with
              | [] => none
              | r :: rest5 =>
                if r = ',' then
                  match parseObjItems fuel rest5 with
                  | some (o, rest6) => some (JsonObj.cons k v o, rest6)
                  | none => none
                else if r = rbrace then some (JsonObj.cons k v JsonObj.nil, rest5)
                else none
          | _ => none
        else none
end

def stringify (j : Json) : String :=
  String.mk (encodeJson j)

/-- `JSON.parse` on the modelled fragment: parse one value and require the
whole input to be consumed. -/
def parseJson (s : String) : Option Json :=
  match parseVal (s.data.length + 1) s.data with
  | some (j, []) => some j
  | _ => none

/-- The serialization step of `publishToQueue` (BaseService.js line 205):
`typeof message === 'string' ? message : JSON.stringify(message)`, on the
modelled JS value space where `Json.str` is a top-level string value. -/
def serializeMessage (m : Json) : String :=
  match m with
  | Json.str s => s
  | _ => stringify m

/-- The decode step of the consumer callback (BaseService.js lines 240-248):
try `JSON.parse`, and on failure hand the raw string to the handler. -/
def decodeContent (content : String) : Json :=
  match parseJson content with
  | some parsed => parsed
  | none => Json.str content

def isStrJson : Json → Bool
  | Json.str _ => true
  | _ => false

mutual
def sizeJson : Json → Nat
  | Json.arr a => sizeArr a + 1
  | Json.obj o => sizeObj o + 1
  | _ => 1
def sizeArr : JsonArr → Nat
  | JsonArr.nil => 0
  | JsonArr.cons j rest => sizeJson j + sizeArr rest + 1
def sizeObj : JsonObj → Nat
  | JsonObj.nil => 0
  | JsonObj.cons _ v rest => sizeJson v + sizeObj rest + 1
end

/-- A suffix is a safe continuation for a value: after a bare number the next
character must not be a digit (numbers are the only non-self-delimiting
tokens). -/
def NumDelim (j : Json) (rest : List Char) : Prop :=
  match j with
  | Json.num _ => ∀ d, rest.head? = some d → isDigitChar d = false
  | _ => True

/-! ## Consumer acknowledgement model (BaseService.js lines 231-262) -/

/-- Operations issued on the channel for one delivered message. -/
inductive ChanOp where
  | ack : ChanOp
  | nack : Bool → Bool → ChanOp
deriving Repr, DecidableEq

/-- The per-message consumer closure of `consumeFromQueue` (BaseService.js
lines 233-259): decode the content (never throws — falls back to the raw
string), run the handler; on success `channel.ack(msg)`, on failure
`channel.nack(msg, false, true)` (no multiple, requeue). -/
def handleDelivery (handler : Json → Except String Unit) (content : String) :
    List ChanOp :=
  match handler (decodeContent content) with
  | Except.ok _ => [ChanOp.ack]
  | Except.error _ => [ChanOp.nack false true]

/-- Modelled from the spec: broker queue semantics for ack/nack (spec §4.3 —
an acknowledged message is removed from the queue, a `nack` with requeue puts
it back); the broker itself (amqplib) is not part of the repository. -/
def stepQueue (handler : Json → Except String Unit) (q : List String) :
    List String × List ChanOp :=
  match q with
  | [] => ([], [])
  | m :: rest =>
    match handler (decodeContent m) with
    | Except.ok _ => (rest, [ChanOp.ack])
    | Except.error _ => (rest ++ [m], [ChanOp.nack false true])

/-- Run `n` delivery rounds, collecting every channel operation issued. -/
def runQueue (handler : Json → Except String Unit) (q : List String) :
    Nat → List String × List ChanOp
  | 0 => (q, [])
  | n + 1 =>
    let s := stepQueue handler q
    let r := runQueue handler s.1 n
    (r.1, s.2 ++ r.2)

/-! ## Helper lemmas about the registry store -/

theorem key_of_bump (k : String) (now : Int) (x : ServiceEntry) :
    (if x.key == k then { x with timestamp := now } else x).key = x.key := by
  split <;> rfl

theorem keys_map_bump (store : List ServiceEntry) (k : String) (now : Int) :
    (store.map (fun x => if x.key == k then { x with timestamp := now } else x)).map
        (fun e => e.key) = store.map (fun e => e.key) := by
  rw [List.map_map]
  exact List.map_congr_left (fun a _ => key_of_bump k now a)

theorem nodupKeys_map_bump {store : List ServiceEntry} (k : String) (now : Int)
    (h : NodupKeys store) :
    NodupKeys (store.map (fun x => if x.key == k then { x with timestamp := now } else x)) := by
  unfold NodupKeys
  rw [keys_map_bump]
  exact h

theorem filter_key_map_bump (store : List ServiceEntry) (k key2 : String) (now : Int) :
    (store.map (fun x => if x.key == k then { x with timestamp := now } else x)).filter
        (fun e => e.key == key2) =
      (store.filter (fun e => e.key == key2)).map
        (fun x => if x.key == k then { x with timestamp := now } else x) := by
  rw [List.filter_map]
  congr 1
  apply List.filter_congr
  intro a _
  simp only [Function.comp_apply]
  rw [key_of_bump]

theorem countKey_map_bump (store : List ServiceEntry) (k key2 : String) (now : Int) :
    countKey (store.map (fun x => if x.key == k then { x with timestamp := now } else x))
        key2 = countKey store key2 := by
  unfold countKey
  rw [filter_key_map_bump, List.length_map]

theorem countKey_le_one {store : List ServiceEntry} (key : String) (h : NodupKeys store) :
    countKey store key ≤ 1 := by
  induction store with
  | nil => simp [countKey]
  | cons e t ih =>
    unfold NodupKeys at h
    simp only [List.map_cons, List.nodup_cons] at h
    by_cases hk : e.key == key
    · have hkey : key = e.key := (eq_of_beq hk).symm
      have hnone : t.filter (fun x => x.key == key) = [] := by
        rw [List.filter_eq_nil_iff]
        intro a ha hcontra
        have hak : a.key = key := eq_of_beq hcontra
        have hmem' : a.key ∈ t.map (fun e => e.key) :=
          List.mem_map_of_mem (fun e => e.key) ha
        rw [hak, hkey] at hmem'
        exact h.1 hmem'
      simp [countKey, List.filter_cons, hk, hnone]
    · have : countKey t key ≤ 1 := ih h.2
      simpa [countKey, List.filter_cons, hk] using this

theorem one_le_countKey {store : List ServiceEntry} {e : ServiceEntry} {key : String}
    (he : e ∈ store) (hk : e.key = key) : 1 ≤ countKey store key := by
  have hmem : e ∈ store.filter (fun x => x.key == key) := by
    rw [List.mem_filter]
    exact ⟨he, by simp [hk]⟩
  have := List.length_pos_of_mem hmem
  unfold countKey
  omega

theorem countKey_of_find?_some {store : List ServiceEntry} {key : String} {e : ServiceEntry}
    (h : NodupKeys store) (hf : store.find? (fun x => x.key == key) = some e) :
    countKey store key = 1 := by
  have hmem := List.mem_of_find?_eq_some hf
  have hp := List.find?_some hf
  simp only [] at hp
  have h1 := one_le_countKey hmem (eq_of_beq hp)
  have h2 := countKey_le_one key h
  omega

theorem countKey_of_find?_none {store : List ServiceEntry} {key : String}
    (hf : store.find? (fun x => x.key == key) = none) :
    countKey store key = 0 := by
  unfold countKey
  rw [List.find?_eq_none] at hf
  simp only [List.length_eq_zero, List.filter_eq_nil_iff]
  exact hf

theorem register_invalid (store : List ServiceEntry) (name host : String) (port : Nat)
    (metadata : List (String × String)) (now : Int)
    (h : name = "" ∨ host = "" ∨ port = 0) :
    register store name host port metadata now =
      (store, Except.error "Service registration requires name, host, and port") := by
  unfold register
  rw [if_pos h]

theorem register_update (store : List ServiceEntry) (name host : String) (port : Nat)
    (metadata : List (String × String)) (now : Int) (e : ServiceEntry)
    (h : ¬(name = "" ∨ host = "" ∨ port = 0))
    (hfind : store.find? (fun x => x.key == generateKey name host port) = some e) :
    register store name host port metadata now =
      (store.map (fun x =>
          if x.key == generateKey name host port then { x with timestamp := now } else x),
       Except.ok { e with timestamp := now }) := by
  unfold register
  rw [if_neg h]
  simp only [hfind]

theorem register_insert (store : List ServiceEntry) (name host : String) (port : Nat)
    (metadata : List (String × String)) (now : Int)
    (h : ¬(name = "" ∨ host = "" ∨ port = 0))
    (hfind : store.find? (fun x => x.key == generateKey name host port) = none) :
    register store name host port metadata now =
      (store ++ [{ name := name, host := host, port := port,
                   url := "http://" ++ host ++ ":" ++ toString port,
                   timestamp := now, metadata := metadata,
                   key := generateKey name host port }],
       Except.ok { name := name, host := host, port := port,
                   url := "http://" ++ host ++ ":" ++ toString port,
                   timestamp := now, metadata := metadata,
                   key := generateKey name host port }) := by
  unfold register
  rw [if_neg h]
  simp only [hfind]

theorem register_preserves_nodup (store : List ServiceEntry) (name host : String)
    (port : Nat) (metadata : List (String × String)) (now : Int)
    (hval : ¬(name = "" ∨ host = "" ∨ port = 0)) (h : NodupKeys store) :
    NodupKeys (register store name host port metadata now).1 := by
  cases hfind : store.find? (fun x => x.key == generateKey name host port) with
  | some e =>
    rw [register_update store name host port metadata now e hval hfind]
    exact nodupKeys_map_bump _ _ h
  | none =>
    rw [register_insert store name host port metadata now hval hfind]
    unfold NodupKeys
    rw [List.map_append]
    rw [List.nodup_append]
    refine ⟨h, List.nodup_singleton _, ?_⟩
    intro a ha hb
    simp only [List.map_cons, List.map_nil, List.mem_singleton] at hb
    rw [List.find?_eq_none] at hfind
    obtain ⟨x, hx, rfl⟩ := List.mem_map.mp ha
    exact hfind x hx (by simp [hb])

theorem register_countKey_one (store : List ServiceEntry) (name host : String)
    (port : Nat) (metadata : List (String × String)) (now : Int)
    (hval : ¬(name = "" ∨ host = "" ∨ port = 0)) (h : NodupKeys store) :
    countKey (register store name host port metadata now).1
      (generateKey name host port) = 1 := by
  cases hfind : store.find? (fun x => x.key == generateKey name host port) with
  | some e =>
    rw [register_update store name host port metadata now e hval hfind]
    rw [countKey_map_bump]
    exact countKey_of_find?_some h hfind
  | none =>
    rw [register_insert store name host port metadata now hval hfind]
    unfold countKey
    rw [List.filter_append, List.length_append]
    have h0 := countKey_of_find?_none hfind
    unfold countKey at h0
    rw [h0]
    simp

theorem register_frame (store : List ServiceEntry) (name host : String)
    (port : Nat) (metadata : List (String × String)) (now : Int) (k : String)
    (hval : ¬(name = "" ∨ host = "" ∨ port = 0))
    (hk : k ≠ generateKey name host port) :
    ((register store name host port metadata now).1).filter (fun e => e.key == k) =
      store.filter (fun e => e.key == k) := by
  cases hfind : store.find? (fun x => x.key == generateKey name host port) with
  | some e =>
    rw [register_update store name host port metadata now e hval hfind]
    rw [filter_key_map_bump]
    refine Eq.trans (List.map_congr_left ?_) (List.map_id _)
    intro a ha
    rw [List.mem_filter] at ha
    have hak : a.key = k := eq_of_beq ha.2
    show (if a.key == generateKey name host port then { a with timestamp := now } else a) = id a
    rw [if_neg, id]
    intro hcontra
    exact hk (hak ▸ eq_of_beq hcontra)
  | none =>
    rw [register_insert store name host port metadata now hval hfind]
    rw [List.filter_append]
    have : ([{ name := name, host := host, port := port,
               url := "http://" ++ host ++ ":" ++ toString port,
               timestamp := now, metadata := metadata,
               key := generateKey name host port }] :
        List ServiceEntry).filter (fun e => e.key == k) = [] := by
      simp only [List.filter_eq_nil_iff, List.mem_singleton]
      intro a ha hcontra
      subst ha
      exact hk (eq_of_beq hcontra).symm
    rw [this, List.append_nil]

theorem register_timestamp_now (store : List ServiceEntry) (name host : String)
    (port : Nat) (metadata : List (String × String)) (now : Int)
    (hval : ¬(name = "" ∨ host = "" ∨ port = 0)) :
    ∀ e ∈ (register store name host port metadata now).1,
      e.key = generateKey name host port → e.timestamp = now := by
  intro e he hkey
  cases hfind : store.find? (fun x => x.key == generateKey name host port) with
  | some e0 =>
    rw [register_update store name host port metadata now e0 hval hfind] at he
    obtain ⟨x, hx, rfl⟩ := List.mem_map.mp he
    by_cases hb : x.key == generateKey name host port
    · rw [if_pos hb]
    · rw [if_neg hb] at hkey ⊢
      exact absurd (by simp [hkey]) hb
  | none =>
    rw [register_insert store name host port metadata now hval hfind] at he
    rw [List.mem_append] at he
    cases he with
    | inl hmem =>
      rw [List.find?_eq_none] at hfind
      exact absurd (by simp [hkey]) (hfind e hmem)
    | inr hmem =>
      rw [List.mem_singleton] at hmem
      subst hmem
      rfl

/-! ## Claim theorems: registry -/

/-- C1: `register(name, host, port, metadata)` fails with the invalid-argument
error and leaves the store unchanged when name, host or port is empty or zero;
otherwise, when an entry with the same key is already stored, no new entry is
created: the store keeps its length, that entry is returned with its timestamp
updated to the current time, and the updated entry is what is stored; every
valid call preserves key uniqueness, leaves exactly one stored entry for the
registered key, and every stored entry at that key carries the latest call's
timestamp. -/
theorem register_correct (store : List ServiceEntry) (name host : String)
    (port : Nat) (metadata : List (String × String)) (now : Int)
    (hkeys : NodupKeys store) :
    ((name = "" ∨ host = "" ∨ port = 0) →
      register store name host port metadata now =
        (store, Except.error "Service registration requires name, host, and port"))
    ∧ (¬(name = "" ∨ host = "" ∨ port = 0) →
       ∀ e, store.find? (fun x => x.key == generateKey name host port) = some e →
        (register store name host port metadata now).1.length = store.length
        ∧ (register store name host port metadata now).2 =
            Except.ok { e with timestamp := now }
        ∧ { e with timestamp := now } ∈ (register store name host port metadata now).1)
    ∧ (¬(name = "" ∨ host = "" ∨ port = 0) →
        NodupKeys (register store name host port metadata now).1
        ∧ countKey (register store name host port metadata now).1
            (generateKey name host port) = 1
        ∧ ∀ e ∈ (register store name host port metadata now).1,
            e.key = generateKey name host port → e.timestamp = now) := by
  refine ⟨fun h => register_invalid store name host port metadata now h, ?_, ?_⟩
  · intro hval e hfind
    rw [register_update store name host port metadata now e hval hfind]
    refine ⟨List.length_map _ _, rfl, ?_⟩
    have hbeq : (e.key == generateKey name host port) = true := by
      have := List.find?_some hfind
      simpa using this
    exact List.mem_map.mpr ⟨e, List.mem_of_find?_eq_some hfind, by rw [if_pos hbeq]⟩
  · intro hval
    exact ⟨register_preserves_nodup store name host port metadata now hval hkeys,
           register_countKey_one store name host port metadata now hval hkeys,
           register_timestamp_now store name host port metadata now hval⟩

/-- Witness for C1: the concrete registration `register("api","localhost",3001)`
into the empty store, then a renewal of the same key at a later time. -/
theorem register_correct_witness :
    (register [] "api" "localhost" 3001 [] 7).1.length = 1
    ∧ countKey (register (register [] "api" "localhost" 3001 [] 7).1
        "api" "localhost" 3001 [] 9).1 (generateKey "api" "localhost" 3001) = 1
    ∧ ∀ e ∈ (register (register [] "api" "localhost" 3001 [] 7).1
        "api" "localhost" 3001 [] 9).1,
        e.key = generateKey "api" "localhost" 3001 → e.timestamp = 9 := by
  have h1 := (register_correct [] "api" "localhost" 3001 [] 7 (by decide)).2.2
    (by decide)
  have h2 := (register_correct (register [] "api" "localhost" 3001 [] 7).1
    "api" "localhost" 3001 [] 9 h1.1).2.2 (by decide)
  exact ⟨by decide, h2.2.1, h2.2.2⟩

/-- C2 counterexample: the triples `("a:b","c",1)` and `("a","b:c",1)` differ
as triples, yet after registering both the store holds a single entry whose
timestamp was renewed by the second call — their colon-joined keys coincide,
so the second registration renews the first entry instead of creating a second
one. -/
theorem register_key_collision :
    (("a:b", "c", (1 : Nat)) ≠ ("a", "b:c", (1 : Nat)))
    ∧ (register (register [] "a:b" "c" 1 [] 0).1 "a" "b:c" 1 [] 5).1.length = 1
    ∧ ((register (register [] "a:b" "c" 1 [] 0).1 "a" "b:c" 1 [] 5).1.map
        (fun e => e.timestamp)) = [5] := by
  refine ⟨by decide, by decide, by decide⟩

/-- C2 (amended): two valid registrations whose generated keys
`name ++ ":" ++ host ++ ":" ++ port` differ yield two distinct live entries —
the second registration neither overwrites nor renews the first key's entry,
and each of the two keys has exactly one stored entry.  (Triples that differ
but produce the same colon-joined key — possible only when a name or host
contains a colon — collapse to a single renewed entry.)  The concrete
scenario holds: after `register("api","localhost",3001)` and
`register("api","localhost",3002)`, `findAll("api")` has exactly 2 entries,
and after `unregister("api","localhost",3001)` exactly one entry remains, with
port 3002. -/
theorem register_distinct_keys (store : List ServiceEntry)
    (n1 h1 : String) (p1 : Nat) (n2 h2 : String) (p2 : Nat)
    (m1 m2 : List (String × String)) (t1 t2 : Int)
    (hkeys : NodupKeys store)
    (hval1 : ¬(n1 = "" ∨ h1 = "" ∨ p1 = 0))
    (hval2 : ¬(n2 = "" ∨ h2 = "" ∨ p2 = 0))
    (hne : generateKey n1 h1 p1 ≠ generateKey n2 h2 p2) :
    (((register (register store n1 h1 p1 m1 t1).1 n2 h2 p2 m2 t2).1).filter
        (fun e => e.key == generateKey n1 h1 p1) =
      ((register store n1 h1 p1 m1 t1).1).filter
        (fun e => e.key == generateKey n1 h1 p1))
    ∧ countKey (register (register store n1 h1 p1 m1 t1).1 n2 h2 p2 m2 t2).1
        (generateKey n1 h1 p1) = 1
    ∧ countKey (register (register store n1 h1 p1 m1 t1).1 n2 h2 p2 m2 t2).1
        (generateKey n2 h2 p2) = 1
    ∧ ((findAll (register (register [] "api" "localhost" 3001 [] 0).1
          "api" "localhost" 3002 [] 0).1 "api" 0 30000).length = 2
       ∧ (findAll (unregister (register (register [] "api" "localhost" 3001 [] 0).1
            "api" "localhost" 3002 [] 0).1 "api" "localhost" 3001).1
            "api" 0 30000).map (fun e => e.port) = [3002]) := by
  have hnodup1 := register_preserves_nodup store n1 h1 p1 m1 t1 hval1 hkeys
  have hframe := register_frame (register store n1 h1 p1 m1 t1).1 n2 h2 p2 m2 t2
    (generateKey n1 h1 p1) hval2 hne
  refine ⟨hframe, ?_, ?_, by decide, by decide⟩
  · have : countKey (register (register store n1 h1 p1 m1 t1).1 n2 h2 p2 m2 t2).1
        (generateKey n1 h1 p1) =
        countKey (register store n1 h1 p1 m1 t1).1 (generateKey n1 h1 p1) := by
      unfold countKey
      rw [hframe]
    rw [this]
    exact register_countKey_one store n1 h1 p1 m1 t1 hval1 hkeys
  · exact register_countKey_one (register store n1 h1 p1 m1 t1).1 n2 h2 p2 m2 t2
      hval2 hnodup1

/-- Witness for C2 (amended) at the concrete ports 3001 and 3002. -/
theorem register_distinct_keys_witness :
    countKey (register (register [] "api" "localhost" 3001 [] 0).1
      "api" "localhost" 3002 [] 0).1 (generateKey "api" "localhost" 3001) = 1
    ∧ countKey (register (register [] "api" "localhost" 3001 [] 0).1
      "api" "localhost" 3002 [] 0).1 (generateKey "api" "localhost" 3002) = 1 := by
  have h := register_distinct_keys [] "api" "localhost" 3001 "api" "localhost" 3002
    [] [] 0 0 (by decide) (by decide) (by decide) (by decide)
  exact ⟨h.2.1, h.2.2.1⟩

/-- C3: `findAll(name)` returns exactly the stored entries whose name matches
and whose age satisfies `now - timestamp <= timeout` (boundary inclusive), so
expired-but-not-yet-swept entries are treated as absent at query time; and
`find(name)` returns an element of `findAll(name)` whenever that list is
non-empty (for every random draw) and an empty result — never an exception —
when it is empty. -/
theorem findAll_find_correct (store : List ServiceEntry) (name : String)
    (now timeout : Int) (r : Nat) :
    (∀ e, e ∈ findAll store name now timeout ↔
        e ∈ store ∧ e.name = name ∧ now - e.timestamp ≤ timeout)
    ∧ (findAll store name now timeout = [] → find store name now timeout r = none)
    ∧ (findAll store name now timeout ≠ [] →
        ∃ e, find store name now timeout r = some e
          ∧ e ∈ findAll store name now timeout) := by
  refine ⟨?_, ?_, ?_⟩
  · intro e
    unfold findAll
    rw [List.mem_filter]
    constructor
    · rintro ⟨hmem, hcond⟩
      by_cases hexp : now - e.timestamp > timeout
      · rw [if_pos hexp] at hcond
        exact absurd hcond (by simp)
      · rw [if_neg hexp] at hcond
        exact ⟨hmem, eq_of_beq hcond, by omega⟩
    · rintro ⟨hmem, hname, hage⟩
      refine ⟨hmem, ?_⟩
      rw [if_neg (by omega)]
      simp [hname]
  · intro h
    simp [find, h]
  · intro h
    have hlen : (findAll store name now timeout).length ≠ 0 := by
      simpa [List.length_eq_zero] using h
    have hlt : r % (findAll store name now timeout).length <
        (findAll store name now timeout).length :=
      Nat.mod_lt _ (Nat.pos_of_ne_zero hlen)
    refine ⟨(findAll store name now timeout)[r % (findAll store name now timeout).length],
      ?_, List.getElem_mem hlt⟩
    simp only [find]
    rw [if_neg hlen]
    exact List.getElem?_eq_getElem hlt

/-- Witness for C3: on a one-entry store the lookup returns that entry for an
arbitrary draw, and on the empty store it returns `none`. -/
theorem findAll_find_correct_witness :
    find [(⟨"api", "localhost", 3001, "u", 0, [], "k"⟩ : ServiceEntry)]
        "api" 0 30000 5 =
      some (⟨"api", "localhost", 3001, "u", 0, [], "k"⟩ : ServiceEntry)
    ∧ find [] "api" 0 30000 5 = none := by
  constructor
  · obtain ⟨e, hfind, hmem⟩ :=
      (findAll_find_correct [(⟨"api", "localhost", 3001, "u", 0, [], "k"⟩ :
        ServiceEntry)] "api" 0 30000 5).2.2 (by decide)
    have hmem' := ((findAll_find_correct [(⟨"api", "localhost", 3001, "u", 0, [],
      "k"⟩ : ServiceEntry)] "api" 0 30000 5).1 e).mp hmem
    have he : e = (⟨"api", "localhost", 3001, "u", 0, [], "k"⟩ : ServiceEntry) := by
      have := hmem'.1
      rwa [List.mem_singleton] at this
    rw [he] at hfind
    exact hfind
  · exact (findAll_find_correct [] "api" 0 30000 5).2.1 (by decide)

/-- C4: one sweep pass deletes exactly the entries whose age strictly exceeds
the timeout and keeps every other entry — an entry aged exactly `timeout`
survives, consistently with the inclusive read filter; `getAll()` is a raw
snapshot (before a sweep it still returns stale entries), and after a sweep a
stale entry is absent from `getAll()`; the defaults are a 30000 ms timeout and
a 300000 ms sweep interval. -/
theorem sweep_expiry_correct (store : List ServiceEntry) (now timeout : Int) :
    (∀ e, e ∈ sweep store now timeout ↔ e ∈ store ∧ ¬(now - e.timestamp > timeout))
    ∧ (∀ e ∈ store, now - e.timestamp = timeout → e ∈ sweep store now timeout)
    ∧ getAll store = store
    ∧ (∀ e ∈ store, now - e.timestamp > timeout → e ∉ getAll (sweep store now timeout))
    ∧ resolveTimeout none = 30000 ∧ resolveCleanupInterval none = 300000 := by
  have hmem : ∀ e, e ∈ sweep store now timeout ↔
      e ∈ store ∧ ¬(now - e.timestamp > timeout) := by
    intro e
    unfold sweep
    rw [List.mem_filter]
    simp
  refine ⟨hmem, ?_, rfl, ?_, rfl, rfl⟩
  · intro e he hb
    exact (hmem e).mpr ⟨he, by omega⟩
  · intro e _ hexp hcontra
    exact absurd ((hmem e).mp hcontra).2 (by omega)

/-- Witness for C4: with a 30000 ms timeout, an entry aged exactly 30000
survives the sweep and an entry aged 30001 is gone from `getAll()`. -/
theorem sweep_expiry_correct_witness :
    (⟨"api", "h", 1, "u", 0, [], "k"⟩ : ServiceEntry) ∈
      sweep [(⟨"api", "h", 1, "u", 0, [], "k"⟩ : ServiceEntry)] 30000 30000
    ∧ (⟨"api", "h", 1, "u", 0, [], "k"⟩ : ServiceEntry) ∉
      getAll (sweep [(⟨"api", "h", 1, "u", 0, [], "k"⟩ : ServiceEntry)]
        30001 30000) := by
  constructor
  · exact (sweep_expiry_correct [(⟨"api", "h", 1, "u", 0, [], "k"⟩ :
      ServiceEntry)] 30000 30000).2.1 _ (by decide) (by decide)
  · exact (sweep_expiry_correct [(⟨"api", "h", 1, "u", 0, [], "k"⟩ :
      ServiceEntry)] 30001 30000).2.2.2.1 _ (by decide) (by decide)

/-- C5: `unregister(name, host, port)` on a key with no matching entry returns
false and leaves the store completely unchanged; on a key with a matching
entry it returns true and removes exactly that entry — every other stored
entry stays, and the store shrinks by exactly one. -/
theorem unregister_correct (store : List ServiceEntry) (name host : String)
    (port : Nat) (hkeys : NodupKeys store) :
    ((∀ e ∈ store, e.key ≠ generateKey name host port) →
        unregister store name host port = (store, false))
    ∧ (∀ e ∈ store, e.key = generateKey name host port →
        (unregister store name host port).2 = true
        ∧ (unregister store name host port).1 =
            store.filter (fun x => !(x.key == generateKey name host port))
        ∧ e ∉ (unregister store name host port).1
        ∧ (∀ x ∈ store, x.key ≠ generateKey name host port →
            x ∈ (unregister store name host port).1)
        ∧ (unregister store name host port).1.length + 1 = store.length) := by
  constructor
  · intro h
    have hany : ¬(store.any (fun e => e.key == generateKey name host port) = true) := by
      rw [List.any_eq_true]
      rintro ⟨x, hx, hbeq⟩
      exact h x hx (eq_of_beq hbeq)
    unfold unregister
    rw [if_neg hany]
  · intro e he hkey
    have hany : store.any (fun x => x.key == generateKey name host port) = true := by
      rw [List.any_eq_true]
      exact ⟨e, he, by simp [hkey]⟩
    have hres : unregister store name host port =
        (store.filter (fun x => !(x.key == generateKey name host port)), true) := by
      unfold unregister
      rw [if_pos hany]
    rw [hres]
    refine ⟨rfl, rfl, ?_, ?_, ?_⟩
    · intro hcontra
      rw [List.mem_filter] at hcontra
      have := hcontra.2
      simp [hkey] at this
    · intro x hx hxkey
      rw [List.mem_filter]
      refine ⟨hx, ?_⟩
      simp only [Bool.not_eq_eq_eq_not, Bool.not_true, beq_eq_false_iff_ne]
      exact hxkey
    · have hsplit := List.length_eq_length_filter_add
        (l := store) (fun x => x.key == generateKey name host port)
      have hcount : countKey store (generateKey name host port) = 1 := by
        have hle := countKey_le_one (generateKey name host port) hkeys
        have hge := one_le_countKey he hkey
        omega
      unfold countKey at hcount
      simp only []
      omega

/-- Witness for C5: removal of the only entry, and a no-op on the empty store. -/
theorem unregister_correct_witness :
    unregister [] "api" "localhost" 3001 = ([], false)
    ∧ (unregister [(⟨"api", "localhost", 3001, "u", 0, [],
        "api:localhost:3001"⟩ : ServiceEntry)] "api" "localhost" 3001).2 = true
    ∧ (unregister [(⟨"api", "localhost", 3001, "u", 0, [],
        "api:localhost:3001"⟩ : ServiceEntry)] "api" "localhost" 3001).1.length + 1
        = 1 := by
  refine ⟨(unregister_correct [] "api" "localhost" 3001 (by decide)).1
    (by intro e he; simp at he), ?_, ?_⟩
  · exact ((unregister_correct [(⟨"api", "localhost", 3001, "u", 0, [],
      "api:localhost:3001"⟩ : ServiceEntry)] "api" "localhost" 3001 (by decide)).2
      (⟨"api", "localhost", 3001, "u", 0, [], "api:localhost:3001"⟩ : ServiceEntry)
      (by decide) (by decide)).1
  · exact ((unregister_correct [(⟨"api", "localhost", 3001, "u", 0, [],
      "api:localhost:3001"⟩ : ServiceEntry)] "api" "localhost" 3001 (by decide)).2
      (⟨"api", "localhost", 3001, "u", 0, [], "api:localhost:3001"⟩ : ServiceEntry)
      (by decide) (by decide)).2.2.2.2

/-! ## Helper lemmas about the factory -/

theorem requireTypeError_ne (type : String) :
    requireTypeError type ≠ "Unsupported service type: " ++ type := by
  intro heq
  have h1 : (requireTypeError type).data.head? = some 'T' := rfl
  rw [heq] at h1
  have h2 : ("Unsupported service type: " ++ type).data.head? = some 'U' := rfl
  rw [h2] at h1
  exact absurd h1 (by decide)

theorem createService_error_frame (services : List (String × BaseService))
    (ty : String) (options : ServiceOptionsIn) (br : Except String Bool)
    (nodeEnv : Option String) (now : Int) (msg : String)
    (herr : (createService services ty options br nodeEnv now).2 = Except.error msg) :
    (createService services ty options br nodeEnv now).1 = services := by
  by_cases hty : ty = ""
  · simp [createService, hty]
  · by_cases htr : serviceTypesTruthy ty = false
    · simp [createService, hty, htr]
    · cases hbr : (if ty = "api-gateway" then Except.ok false else br) with
      | error e => simp [createService, hty, htr, hbr]
      | ok ch =>
        cases hlook : serviceTypes.lookup ty with
        | none => simp [createService, hty, htr, hbr, hlook]
        | some p =>
          exfalso
          simp [createService, hty, htr, hbr, hlook] at herr

theorem createService_known (services : List (String × BaseService))
    (type : String) (options : ServiceOptionsIn) (ch : Bool)
    (nodeEnv : Option String) (now : Int)
    (hty : type ≠ "") (hsome : (serviceTypes.lookup type).isSome) :
    createService services type options (Except.ok ch) nodeEnv now =
      (services ++ [(type ++ "-" ++ toString now,
        mkBaseService (buildServiceOptions type options
          (if type = "api-gateway" then false else ch) nodeEnv))],
       Except.ok (mkBaseService (buildServiceOptions type options
          (if type = "api-gateway" then false else ch) nodeEnv))) := by
  by_cases hgw : type = "api-gateway"
  · subst hgw
    rfl
  · obtain ⟨path, hpath⟩ := Option.isSome_iff_exists.mp hsome
    have htr : serviceTypesTruthy type = true := by
      unfold serviceTypesTruthy
      rw [hpath]
      simp
    unfold createService
    rw [if_neg hty, if_neg (by simp [htr]), if_neg hgw]
    simp [hgw, hpath]

theorem getDefaultPort_ne_zero (type : String) : getDefaultPort type ≠ 0 := by
  unfold getDefaultPort jsOrNat
  cases portMap.lookup type with
  | none => simp
  | some p =>
    by_cases hp : p = 0 <;> simp [hp]

/-! ## Claim theorems: factory -/

/-- C6 counterexample: the empty string is a type outside the factory's known
set, yet `createService("", {})` fails with the missing-type error
`'Service type is required'`, which is not the UnsupportedType error — the
claim's universally quantified error kind is wrong at this input (the table is
still left unchanged). -/
theorem createService_empty_type :
    serviceTypes.lookup "" = none
    ∧ createService [] "" {} (Except.ok true) none 0 =
        ([], Except.error "Service type is required")
    ∧ "Service type is required" ≠ "Unsupported service type: " ++ "" := by
  refine ⟨rfl, rfl, by decide⟩

/-- C6 (amended): for every type string not in the factory's known set,
`createService` fails and does not mutate the instance table — creation is
all-or-nothing on every error outcome, broker failures included.  The failure
is the UnsupportedType error `'Unsupported service type: <type>'` exactly for
the non-empty types that are not `Object.prototype` property names; the empty
string fails earlier with the missing-type error, and a property name
inherited from `Object.prototype` (such as `toString`, `constructor` or
`hasOwnProperty`) is truthy through the prototype chain, slips past the
check, and fails later — with the broker connection error when that fails,
otherwise with the TypeError that `require` raises on the inherited
non-string value, which is never the UnsupportedType error. -/
theorem createService_unknown_type (services : List (String × BaseService))
    (type : String) (options : ServiceOptionsIn) (broker : Except String Bool)
    (nodeEnv : Option String) (now : Int)
    (h : serviceTypes.lookup type = none) :
    (createService services type options broker nodeEnv now).1 = services
    ∧ (type ≠ "" → objectProtoProps.contains type = false →
        (createService services type options broker nodeEnv now).2 =
          Except.error ("Unsupported service type: " ++ type))
    ∧ (type = "" → (createService services type options broker nodeEnv now).2 =
        Except.error "Service type is required")
    ∧ (objectProtoProps.contains type = true →
        (∀ e, broker = Except.error e →
          (createService services type options broker nodeEnv now).2 =
            Except.error e)
        ∧ (∀ ch, broker = Except.ok ch →
          (createService services type options broker nodeEnv now).2 =
            Except.error (requireTypeError type))
        ∧ requireTypeError type ≠ "Unsupported service type: " ++ type)
    ∧ (∀ (ty msg : String) (br : Except String Bool),
        (createService services ty options br nodeEnv now).2 = Except.error msg →
        getAllServices (createService services ty options br nodeEnv now).1 =
          getAllServices services) := by
  refine ⟨?_, ?_, ?_, ?_, ?_⟩
  · by_cases hty : type = ""
    · simp [createService, hty]
    · by_cases htr : serviceTypesTruthy type = false
      · simp [createService, hty, htr]
      · cases hbr : (if type = "api-gateway" then Except.ok false else broker) with
        | error e => simp [createService, hty, htr, hbr]
        | ok ch => simp [createService, hty, htr, hbr, h]
  · intro hty hpr
    have htr : serviceTypesTruthy type = false := by
      unfold serviceTypesTruthy
      rw [h, hpr]
      rfl
    simp [createService, hty, htr]
  · intro hty
    simp [createService, hty]
  · intro hpr
    have htr : ¬(serviceTypesTruthy type = false) := by
      unfold serviceTypesTruthy
      rw [h, hpr]
      simp
    have hty : type ≠ "" := by
      intro he
      rw [he] at hpr
      exact absurd hpr (by decide)
    have hgw : type ≠ "api-gateway" := by
      intro he
      rw [he] at h
      simp [serviceTypes] at h
    refine ⟨?_, ?_, requireTypeError_ne type⟩
    · intro e hbr
      simp [createService, hty, htr, hgw, hbr]
    · intro ch hbr
      simp [createService, hty, htr, hgw, hbr, h]
  · intro ty msg br herr
    unfold getAllServices
    exact createService_error_frame services ty options br nodeEnv now msg herr

/-- Witness for C6 at the spec's concrete scenario
`createService("unknown-type", {})`, together with the prototype-chain input
`createService("toString", {})`, which fails with the require TypeError
instead of UnsupportedType. -/
theorem createService_unknown_type_witness :
    (createService [] "unknown-type" {} (Except.ok true) none 0).1 = []
    ∧ (createService [] "unknown-type" {} (Except.ok true) none 0).2 =
        Except.error ("Unsupported service type: " ++ "unknown-type")
    ∧ (createService [] "toString" {} (Except.ok true) none 0).2 =
        Except.error (requireTypeError "toString") := by
  have h1 := createService_unknown_type [] "unknown-type" {} (Except.ok true)
    none 0 rfl
  have h2 := createService_unknown_type [] "toString" {} (Except.ok true)
    none 0 rfl
  exact ⟨h1.1, h1.2.1 (by decide) (by decide),
    (h2.2.2.2.1 (by decide)).2.1 true rfl⟩

/-- C7 counterexample: `createService("otp", { port: undefined })` — exactly
the options object src/index.js builds when `-p` is absent — carries no usable
port value, yet the constructed service's port is 3000 (the BaseService
fallback), not the table default 3002: the trailing `...options` spread
overwrites the computed default port. -/
theorem default_port_clobbered :
    (match (createService [] "otp" { port := some none } (Except.ok true)
        none 0).2 with
     | Except.ok s => s.port
     | Except.error _ => 0) = 3000
    ∧ getDefaultPort "otp" = 3002
    ∧ (3000 : Nat) ≠ 3002 := by
  refine ⟨rfl, rfl, by decide⟩

/-- C7 (amended): when the options object has no `port` key at all, the
constructed service's port is the static table default (3000 for api-gateway,
3001 for api, 3002 for otp), and an explicitly given non-zero port takes
precedence; but when the `port` key is present with a falsy value (`0` or
`undefined`), the trailing `...options` spread overwrites the computed default
and the instance gets the BaseService fallback 3000 regardless of type. -/
theorem default_port_resolution (services : List (String × BaseService))
    (type : String) (options : ServiceOptionsIn) (ch : Bool)
    (nodeEnv : Option String) (now : Int) (p : Nat)
    (hknown : (serviceTypes.lookup type).isSome) :
    (options.port = none →
      ∃ s, (createService services type options (Except.ok ch) nodeEnv now).2 =
        Except.ok s ∧ s.port = getDefaultPort type)
    ∧ (options.port = some (some p) → p ≠ 0 →
      ∃ s, (createService services type options (Except.ok ch) nodeEnv now).2 =
        Except.ok s ∧ s.port = p)
    ∧ ((options.port = some none ∨ options.port = some (some 0)) →
      ∃ s, (createService services type options (Except.ok ch) nodeEnv now).2 =
        Except.ok s ∧ s.port = 3000)
    ∧ getDefaultPort "api-gateway" = 3000 ∧ getDefaultPort "api" = 3001
    ∧ getDefaultPort "otp" = 3002 := by
  have hty : type ≠ "" := by
    intro hcontra
    rw [hcontra] at hknown
    simp [serviceTypes] at hknown
  have hrun := createService_known services type options ch nodeEnv now hty hknown
  refine ⟨?_, ?_, ?_, rfl, rfl, rfl⟩
  · intro hp
    refine ⟨_, by rw [hrun], ?_⟩
    simp [mkBaseService, buildServiceOptions, hp, jsOrNat, Option.join,
      getDefaultPort_ne_zero type]
  · intro hp hpz
    refine ⟨_, by rw [hrun], ?_⟩
    simp [mkBaseService, buildServiceOptions, hp, jsOrNat, Option.join, hpz]
  · intro hp
    cases hp with
    | inl h0 =>
      refine ⟨_, by rw [hrun], ?_⟩
      simp [mkBaseService, buildServiceOptions, h0, jsOrNat, Option.join]
    | inr h0 =>
      refine ⟨_, by rw [hrun], ?_⟩
      simp [mkBaseService, buildServiceOptions, h0, jsOrNat, Option.join]

/-- Witness for C7: for `otp`, an absent port key resolves to the table
default 3002 and an explicit port 4000 takes precedence. -/
theorem default_port_resolution_witness :
    (∃ s, (createService [] "otp" {} (Except.ok true) none 0).2 = Except.ok s
      ∧ s.port = getDefaultPort "otp")
    ∧ (∃ s, (createService [] "otp" { port := some (some 4000) }
        (Except.ok true) none 0).2 = Except.ok s ∧ s.port = 4000) := by
  constructor
  · exact (default_port_resolution [] "otp" {} true none 0 4000 (by decide)).1 rfl
  · exact (default_port_resolution [] "otp" { port := some (some 4000) } true
      none 0 4000 (by decide)).2.1 rfl (by decide)

/-! ## Claim theorem: CLI -/

/-- C9: src/index.js honours two thirds of the claim — a launch with no `-s=`
flag exits with status 1, and `-e=` defaults to `development` — but the
`args.forEach` loop has no `-p=` branch, so in the launch
`node index.js -s=otp -p=3005` the port variable stays undefined, the
`{ port, env }` options object carries `port: undefined` into `createService`,
and the started service's port is the BaseService fallback 3000, not the
requested 3005. -/
theorem cli_port_flag_ignored :
    cliMain [] = Except.error 1
    ∧ cliMain ["-e=production"] = Except.error 1
    ∧ parseArgs ["-s=otp", "-p=3005"] =
        { serviceName := some "otp", port := none, env := "development" }
    ∧ (match (createService [] "otp"
          (mainOptions (parseArgs ["-s=otp", "-p=3005"])) (Except.ok true)
          none 0).2 with
       | Except.ok s => s.port
       | Except.error _ => 0) = 3000
    ∧ (3000 : Nat) ≠ 3005 := by
  refine ⟨rfl, rfl, rfl, rfl, by decide⟩

/-! ## Claim theorem: consumer acknowledgement -/

theorem runQueue_always_fail (handler : Json → Except String Unit)
    (content : String) (hfail : ∀ j, ∃ msg, handler j = Except.error msg) :
    ∀ n, runQueue handler [content] n =
      ([content], List.replicate n (ChanOp.nack false true)) := by
  intro n
  induction n with
  | zero => rfl
  | succ k ih =>
    obtain ⟨msg, hmsg⟩ := hfail (decodeContent content)
    have hstep : stepQueue handler [content] =
        ([content], [ChanOp.nack false true]) := by
      simp [stepQueue, hmsg]
    unfold runQueue
    rw [hstep]
    simp only [ih, List.replicate_succ]
    rfl

/-- C8: for every message delivered to a consumer installed by
`consumeFromQueue`: if the handler invocation succeeds, the channel receives
exactly one `ack` (the message is removed from the queue); if the handler
throws, the channel receives a `nack` with `requeue = true` and never an
`ack`; consequently an always-throwing handler leaves the message in the
queue after every number of delivery rounds, with no acknowledgement ever
issued. -/
theorem consume_ack_discipline (handler : Json → Except String Unit)
    (content : String) (n : Nat) :
    (handler (decodeContent content) = Except.ok () →
      handleDelivery handler content = [ChanOp.ack]
      ∧ (handleDelivery handler content).count ChanOp.ack = 1
      ∧ stepQueue handler [content] = ([], [ChanOp.ack]))
    ∧ (∀ msg, handler (decodeContent content) = Except.error msg →
      handleDelivery handler content = [ChanOp.nack false true]
      ∧ ChanOp.ack ∉ handleDelivery handler content)
    ∧ ((∀ j, ∃ msg, handler j = Except.error msg) →
      runQueue handler [content] n =
        ([content], List.replicate n (ChanOp.nack false true))
      ∧ content ∈ (runQueue handler [content] n).1
      ∧ ChanOp.ack ∉ (runQueue handler [content] n).2) := by
  refine ⟨?_, ?_, ?_⟩
  · intro h
    refine ⟨?_, ?_, ?_⟩ <;> simp [handleDelivery, stepQueue, h]
  · intro msg h
    constructor <;> simp [handleDelivery, h]
  · intro hfail
    have hrun := runQueue_always_fail handler content hfail n
    refine ⟨hrun, ?_, ?_⟩
    · rw [hrun]
      simp
    · rw [hrun]
      simp

/-- Witness for C8: a succeeding handler acknowledges once; a handler that
always throws leaves the message queued after 3 rounds with only requeueing
nacks issued. -/
theorem consume_ack_discipline_witness :
    handleDelivery (fun _ => Except.ok ()) "m" = [ChanOp.ack]
    ∧ runQueue (fun _ => Except.error "boom") ["m"] 3 =
        (["m"], List.replicate 3 (ChanOp.nack false true)) := by
  constructor
  · exact ((consume_ack_discipline (fun _ => Except.ok ()) "m" 3).1 rfl).1
  · exact ((consume_ack_discipline (fun _ => Except.error "boom") "m" 3).2.2
      (fun j => ⟨"boom", rfl⟩)).1
theorem mk_data (s : String) : String.mk s.data = s := rfl

theorem parseStrChars_cons (fuel : Nat) (c : Char) (cs : List Char) :
    parseStrChars (fuel + 1) (c :: cs) =
      if c = '\"' then some ([], cs)
      else if c = '\\' then
        match cs with
        | [] => none
        | e :: cs2 =>
          match unescapeChar e with
          | none => none
          | some u =>
            match parseStrChars fuel cs2 with
            | none => none
            | some (chars, rest) => some (u :: chars, rest)
      else
        match parseStrChars fuel cs with
        | none => none
        | some (chars, rest) => some (c :: chars, rest) := rfl

theorem parseStrChars_escape : ∀ (cs : List Char) (fuel : Nat) (rest : List Char),
    cs.length + 1 ≤ fuel →
    parseStrChars fuel (escapeList cs ++ '\"' :: rest) = some (cs, rest) := by
  intro cs
  induction cs with
  | nil =>
    intro fuel rest hfuel
    cases fuel with
    | zero => omega
    | succ f => rfl
  | cons c cs ih =>
    intro fuel rest hfuel
    cases fuel with
    | zero => simp at hfuel
    | succ f =>
      have hf : cs.length + 1 ≤ f := by
        simp only [List.length_cons] at hfuel
        omega
      show parseStrChars (f + 1) ((escapeChar c ++ escapeList cs) ++ '\"' :: rest) = _
      rw [List.append_assoc]
      unfold escapeChar
      by_cases h1 : c = '\"'
      · subst h1
        rw [if_pos rfl]
        rw [List.cons_append, List.cons_append, parseStrChars_cons]
        simp +decide [unescapeChar, ih f rest hf]
      · rw [if_neg h1]
        by_cases h2 : c = '\\'
        · subst h2
          rw [if_pos rfl, List.cons_append, List.cons_append, parseStrChars_cons]
          simp +decide [unescapeChar, ih f rest hf]
        · rw [if_neg h2]
          by_cases h3 : c = '\n'
          · subst h3
            rw [if_pos rfl, List.cons_append, List.cons_append, parseStrChars_cons]
            simp +decide [unescapeChar, ih f rest hf]
          · rw [if_neg h3]
            by_cases h4 : c = '\r'
            · subst h4
              rw [if_pos rfl, List.cons_append, List.cons_append, parseStrChars_cons]
              simp +decide [unescapeChar, ih f rest hf]
            · rw [if_neg h4]
              by_cases h5 : c = '\t'
              · subst h5
                rw [if_pos rfl, List.cons_append, List.cons_append, parseStrChars_cons]
                simp +decide [unescapeChar, ih f rest hf]
              · rw [if_neg h5, List.singleton_append, parseStrChars_cons,
                  if_neg h1, if_neg h2, ih f rest hf]

theorem escapeList_length (cs : List Char) : cs.length ≤ (escapeList cs).length := by
  induction cs with
  | nil => simp [escapeList]
  | cons c cs ih =>
    show cs.length + 1 ≤ (escapeChar c ++ escapeList cs).length
    rw [List.length_append]
    have : 1 ≤ (escapeChar c).length := by
      unfold escapeChar
      repeat' split
      all_goals simp
    omega

theorem parseStringRest_escape (s : String) (rest : List Char) :
    parseStringRest (escapeList s.data ++ '\"' :: rest) = some (s, rest) := by
  have hlen : s.data.length + 1 ≤ (escapeList s.data ++ '\"' :: rest).length + 1 := by
    rw [List.length_append, List.length_cons]
    have := escapeList_length s.data
    omega
  unfold parseStringRest
  rw [parseStrChars_escape s.data ((escapeList s.data ++ '\"' :: rest).length + 1)
    rest hlen]

theorem digitChar_isDigit {d : Nat} (h : d < 10) : isDigitChar (digitChar d) = true := by
  interval_cases d <;> decide

theorem digitChar_toNat {d : Nat} (h : d < 10) : (digitChar d).toNat - 48 = d := by
  interval_cases d <;> decide

theorem natDigitsAux_succ (fuel n : Nat) :
    natDigitsAux (fuel + 1) n =
      if n < 10 then [digitChar n]
      else natDigitsAux fuel (n / 10) ++ [digitChar (n % 10)] := rfl

theorem natDigitsAux_all_digits : ∀ (fuel n : Nat), n < fuel →
    ∀ c ∈ natDigitsAux fuel n, isDigitChar c = true := by
  intro fuel
  induction fuel with
  | zero => intro n h; omega
  | succ fuel ih =>
    intro n h c hc
    rw [natDigitsAux_succ] at hc
    by_cases h10 : n < 10
    · rw [if_pos h10] at hc
      rw [List.mem_singleton] at hc
      subst hc
      exact digitChar_isDigit h10
    · rw [if_neg h10] at hc
      rw [List.mem_append] at hc
      cases hc with
      | inl hc => exact ih (n / 10) (by omega) c hc
      | inr hc =>
        rw [List.mem_singleton] at hc
        subst hc
        exact digitChar_isDigit (Nat.mod_lt n (by omega))

theorem natDigitsAux_ne_nil (fuel n : Nat) (h : n < fuel) :
    natDigitsAux fuel n ≠ [] := by
  cases fuel with
  | zero => omega
  | succ fuel =>
    rw [natDigitsAux_succ]
    by_cases h10 : n < 10
    · simp [h10]
    · simp [h10]

theorem parseDigits_cons (c : Char) (cs : List Char) (acc : Nat) :
    parseDigits (c :: cs) acc =
      if isDigitChar c then parseDigits cs (acc * 10 + (c.toNat - 48))
      else (acc, c :: cs) := rfl

theorem parseDigits_stop (rest : List Char) (acc : Nat)
    (h : ∀ d, rest.head? = some d → isDigitChar d = false) :
    parseDigits rest acc = (acc, rest) := by
  cases rest with
  | nil => rfl
  | cons c cs =>
    have hc := h c rfl
    rw [parseDigits_cons, if_neg (by simp [hc])]

theorem parseDigits_natDigitsAux : ∀ (fuel n : Nat), n < fuel →
    ∀ (rest : List Char) (acc : Nat),
    parseDigits (natDigitsAux fuel n ++ rest) acc =
      parseDigits rest (acc * 10 ^ (natDigitsAux fuel n).length + n) := by
  intro fuel
  induction fuel with
  | zero => intro n h; omega
  | succ fuel ih =>
    intro n h rest acc
    rw [natDigitsAux_succ]
    by_cases h10 : n < 10
    · rw [if_pos h10]
      simp only [List.singleton_append, List.length_singleton]
      rw [parseDigits_cons, if_pos (digitChar_isDigit h10), digitChar_toNat h10]
      norm_num
    · rw [if_neg h10]
      rw [List.append_assoc, List.singleton_append]
      have hdiv : n / 10 < fuel := by omega
      rw [ih (n / 10) hdiv]
      rw [parseDigits_cons, if_pos (digitChar_isDigit (Nat.mod_lt n (by omega))),
        digitChar_toNat (Nat.mod_lt n (by omega))]
      congr 1
      rw [List.length_append, List.length_singleton, pow_succ]
      have hdm : 10 * (n / 10) + n % 10 = n := Nat.div_add_mod n 10
      calc (acc * 10 ^ (natDigitsAux fuel (n / 10)).length + n / 10) * 10 + n % 10
          = acc * (10 ^ (natDigitsAux fuel (n / 10)).length * 10) +
            (10 * (n / 10) + n % 10) := by ring
        _ = acc * (10 ^ (natDigitsAux fuel (n / 10)).length * 10) + n := by rw [hdm]

theorem parseNum_cons (c : Char) (cs : List Char) :
    parseNum (c :: cs) =
      if isDigitChar c then some (parseDigits (c :: cs) 0) else none := rfl

theorem parseNum_natDigits (n : Nat) (rest : List Char)
    (hrest : ∀ d, rest.head? = some d → isDigitChar d = false) :
    parseNum (natDigits n ++ rest) = some (n, rest) := by
  unfold natDigits
  obtain ⟨c, cs, hcons⟩ :=
    List.exists_cons_of_ne_nil (natDigitsAux_ne_nil (n + 1) n (by omega))
  have hdig : isDigitChar c = true := by
    apply natDigitsAux_all_digits (n + 1) n (by omega)
    rw [hcons]
    exact List.mem_cons_self c cs
  rw [hcons, List.cons_append, parseNum_cons, if_pos hdig, ← List.cons_append,
    ← hcons, parseDigits_natDigitsAux (n + 1) n (by omega)]
  simp only [Nat.zero_mul, Nat.zero_add]
  rw [parseDigits_stop rest n hrest]

theorem parseVal_cons (fuel : Nat) (c : Char) (rest : List Char) :
    parseVal (fuel + 1) (c :: rest) =
      (if c = 'n' then
        match rest with
        | 'u' :: 'l' :: 'l' :: rest2 => some (Json.null, rest2)
        | _ => none
      else if c = 't' then
        match rest with
        | 'r' :: 'u' :: 'e' :: rest2 => some (Json.bool true, rest2)
        | _ => none
      else if c = 'f' then
        match rest with
        | 'a' :: 'l' :: 's' :: 'e' :: rest2 => some (Json.bool false, rest2)
        | _ => none
      else if c = '\"' then
        match parseStringRest rest with
        | some (s, rest2) => some (Json.str s, rest2)
        | none => none
      else if c = '-' then
        match parseNum rest with
        | some (n, rest2) => some (Json.num (-(n : Int)), rest2)
        | none => none
      else if isDigitChar c then
        match parseNum (c :: rest) with
        | some (n, rest2) => some (Json.num (Int.ofNat n), rest2)
        | none => none
      else if c = '[' then
        match rest with
        | [] => none
        | r :: rest2 =>
          if r = ']' then some (Json.arr JsonArr.nil, rest2)
          else
            match parseArrItems fuel (r :: rest2) with
            | some (a, rest3) => some (Json.arr a, rest3)
            | none => none
      else if c = lbrace then
        match rest with
        | [] => none
        | r :: rest2 =>
          if r = rbrace then some (Json.obj JsonObj.nil, rest2)
          else
            match parseObjItems fuel (r :: rest2) with
            | some (o, rest3) => some (Json.obj o, rest3)
            | none => none
      else none) := rfl

theorem parseArrItems_succ (fuel : Nat) (cs : List Char) :
    parseArrItems (fuel + 1) cs =
      (match parseVal fuel cs with
      | none => none
      | some (j, rest) =>
        match rest with
        | [] => none
        | r :: rest2 =>
          if r = ',' then
            match parseArrItems fuel rest2 with
            | some (a, rest3) => some (JsonArr.cons j a, rest3)
            | none => none
          else if r = ']' then some (JsonArr.cons j JsonArr.nil, rest2)
          else none) := rfl

theorem parseObjItems_succ (fuel : Nat) (cs : List Char) :
    parseObjItems (fuel + 1) cs =
      (match cs with
      | [] => none
      | c :: rest =>
        if c = '\"' then
          match parseStringRest rest with
          | none => none
          | some (k, rest2) =>
            match rest2 with
            | ':' :: rest3 =>
              match parseVal fuel rest3 with
              | none => none
              | some (v, rest4) =>
                match rest4 with
                | [] => none
                | r :: rest5 =>
                  if r = ',' then
                    match parseObjItems fuel rest5 with
                    | some (o, rest6) => some (JsonObj.cons k v o, rest6)
                    | none => none
                  else if r = rbrace then some (JsonObj.cons k v JsonObj.nil, rest5)
                  else none
            | _ => none
        else none) := rfl

theorem digit_not_keyword {c : Char} (h : isDigitChar c = true) :
    c ≠ 'n' ∧ c ≠ 't' ∧ c ≠ 'f' ∧ c ≠ '\"' ∧ c ≠ '-' ∧ c ≠ ']' := by
  refine ⟨?_, ?_, ?_, ?_, ?_, ?_⟩ <;>
    (intro hc; rw [hc] at h; exact absurd h (by decide))

theorem numDelim_of_head (j : Json) (r : Char) (rest : List Char)
    (h : isDigitChar r = false) : NumDelim j (r :: rest) := by
  cases j <;> try trivial
  intro d hd
  rw [List.head?_cons, Option.some.injEq] at hd
  rw [← hd]
  exact h

theorem parseVal_num (n : Int) (rest : List Char) (fuel : Nat)
    (hrest : ∀ d, rest.head? = some d → isDigitChar d = false) :
    parseVal (fuel + 1) (encodeInt n ++ rest) = some (Json.num n, rest) := by
  unfold encodeInt
  by_cases hneg : n < 0
  · rw [if_pos hneg, List.cons_append, parseVal_cons,
      if_neg (by decide), if_neg (by decide), if_neg (by decide),
      if_neg (by decide), if_pos rfl, parseNum_natDigits n.natAbs rest hrest]
    show some (Json.num (-(n.natAbs : Int)), rest) = some (Json.num n, rest)
    have habs : -(n.natAbs : Int) = n := by omega
    rw [habs]
  · rw [if_neg hneg]
    obtain ⟨c, cs, hcons⟩ := List.exists_cons_of_ne_nil
      (natDigitsAux_ne_nil (n.toNat + 1) n.toNat (by omega))
    have hdig : isDigitChar c = true := by
      apply natDigitsAux_all_digits (n.toNat + 1) n.toNat (by omega)
      rw [hcons]
      exact List.mem_cons_self c cs
    have hcl := digit_not_keyword hdig
    have hcons' : natDigits n.toNat = c :: cs := hcons
    rw [hcons', List.cons_append, parseVal_cons, if_neg hcl.1, if_neg hcl.2.1,
      if_neg hcl.2.2.1, if_neg hcl.2.2.2.1, if_neg hcl.2.2.2.2.1, if_pos hdig,
      ← List.cons_append, ← hcons', parseNum_natDigits n.toNat rest hrest]
    show some (Json.num (Int.ofNat n.toNat), rest) = some (Json.num n, rest)
    have htn : (Int.ofNat n.toNat) = n := Int.toNat_of_nonneg (by omega)
    rw [htn]

theorem sizeJson_pos (j : Json) : 1 ≤ sizeJson j := by
  cases j <;> simp [sizeJson]

mutual
theorem sizeJson_le_encode : ∀ j : Json, sizeJson j ≤ (encodeJson j).length
  | Json.null => by simp [sizeJson, encodeJson]
  | Json.bool true => by simp [sizeJson, encodeJson]
  | Json.bool false => by simp [sizeJson, encodeJson]
  | Json.num n => by
    have := sizeJson_pos (Json.num n)
    simp only [sizeJson]
    have hne : encodeInt n ≠ [] := by
      unfold encodeInt
      by_cases hneg : n < 0
      · simp [hneg]
      · rw [if_neg hneg]
        exact natDigitsAux_ne_nil _ _ (by omega)
    have : 0 < (encodeInt n).length := List.length_pos.mpr hne
    show 1 ≤ (encodeJson (Json.num n)).length
    show 1 ≤ (encodeInt n).length
    omega
  | Json.str s => by
    show 1 ≤ (encodeString s).length
    simp [encodeString]
  | Json.arr a => by
    have ha := sizeArr_le_encode a
    show sizeArr a + 1 ≤ ('[' :: (encodeArr a ++ [']'])).length
    simp only [List.length_cons, List.length_append, List.length_singleton]
    omega
  | Json.obj o => by
    have ho := sizeObj_le_encode o
    show sizeObj o + 1 ≤ (lbrace :: (encodeObj o ++ [rbrace])).length
    simp only [List.length_cons, List.length_append, List.length_singleton]
    omega
theorem sizeArr_le_encode : ∀ a : JsonArr, sizeArr a ≤ (encodeArr a).length + 1
  | JsonArr.nil => by simp [sizeArr]
  | JsonArr.cons j JsonArr.nil => by
    have hj := sizeJson_le_encode j
    show sizeJson j + 0 + 1 ≤ (encodeJson j).length + 1
    omega
  | JsonArr.cons j (JsonArr.cons j2 t2) => by
    have hj := sizeJson_le_encode j
    have ht := sizeArr_le_encode (JsonArr.cons j2 t2)
    show sizeJson j + sizeArr (JsonArr.cons j2 t2) + 1 ≤
      (encodeJson j ++ ',' :: encodeArr (JsonArr.cons j2 t2)).length + 1
    simp only [List.length_append, List.length_cons]
    omega
theorem sizeObj_le_encode : ∀ o : JsonObj, sizeObj o ≤ (encodeObj o).length + 1
  | JsonObj.nil => by simp [sizeObj]
  | JsonObj.cons k v JsonObj.nil => by
    have hv := sizeJson_le_encode v
    show sizeJson v + 0 + 1 ≤ (encodeString k ++ ':' :: encodeJson v).length + 1
    simp only [List.length_append, List.length_cons]
    omega
  | JsonObj.cons k v (JsonObj.cons k2 v2 t2) => by
    have hv := sizeJson_le_encode v
    have ht := sizeObj_le_encode (JsonObj.cons k2 v2 t2)
    show sizeJson v + sizeObj (JsonObj.cons k2 v2 t2) + 1 ≤
      (encodeString k ++ ':' :: encodeJson v ++ ',' ::
        encodeObj (JsonObj.cons k2 v2 t2)).length + 1
    simp only [List.length_append, List.length_cons]
    omega
end

theorem encodeJson_head_ne_rbracket (j : Json) :
    ∃ c cs, encodeJson j = c :: cs ∧ c ≠ ']' := by
  cases j with
  | null => exact ⟨'n', _, rfl, by decide⟩
  | bool b =>
    cases b with
    | false => exact ⟨'f', _, rfl, by decide⟩
    | true => exact ⟨'t', _, rfl, by decide⟩
  | num n =>
    show ∃ c cs, encodeInt n = c :: cs ∧ c ≠ ']'
    unfold encodeInt
    by_cases hneg : n < 0
    · exact ⟨'-', _, by rw [if_pos hneg], by decide⟩
    · rw [if_neg hneg]
      obtain ⟨c, cs, hcons⟩ := List.exists_cons_of_ne_nil
        (natDigitsAux_ne_nil (n.toNat + 1) n.toNat (by omega))
      have hdig : isDigitChar c = true := by
        apply natDigitsAux_all_digits (n.toNat + 1) n.toNat (by omega)
        rw [hcons]
        exact List.mem_cons_self c cs
      exact ⟨c, cs, hcons, (digit_not_keyword hdig).2.2.2.2.2⟩
  | str s => exact ⟨'\"', _, rfl, by decide⟩
  | arr a => exact ⟨'[', _, rfl, by decide⟩
  | obj o => exact ⟨lbrace, _, rfl, by decide⟩

theorem encodeArr_cons_head (j : Json) (t : JsonArr) :
    ∃ c cs, encodeArr (JsonArr.cons j t) = c :: cs ∧ c ≠ ']' := by
  obtain ⟨c, cs, hcons, hc⟩ := encodeJson_head_ne_rbracket j
  cases t with
  | nil => exact ⟨c, cs, hcons, hc⟩
  | cons j2 t2 =>
    refine ⟨c, cs ++ ',' :: encodeArr (JsonArr.cons j2 t2), ?_, hc⟩
    show encodeJson j ++ ',' :: encodeArr (JsonArr.cons j2 t2) = _
    rw [hcons, List.cons_append]

theorem encodeObj_cons_head (k : String) (v : Json) (t : JsonObj) :
    ∃ cs, encodeObj (JsonObj.cons k v t) = '\"' :: cs := by
  cases t with
  | nil => exact ⟨_, rfl⟩
  | cons k2 v2 t2 => exact ⟨_, rfl⟩

theorem parse_encode_round : ∀ fuel : Nat,
    (∀ (j : Json) (rest : List Char), sizeJson j ≤ fuel → NumDelim j rest →
      parseVal fuel (encodeJson j ++ rest) = some (j, rest))
    ∧ (∀ (a : JsonArr) (rest : List Char), a ≠ JsonArr.nil → sizeArr a ≤ fuel →
      parseArrItems fuel (encodeArr a ++ ']' :: rest) = some (a, rest))
    ∧ (∀ (o : JsonObj) (rest : List Char), o ≠ JsonObj.nil → sizeObj o ≤ fuel →
      parseObjItems fuel (encodeObj o ++ rbrace :: rest) = some (o, rest)) := by
  intro fuel
  induction fuel with
  | zero =>
    refine ⟨?_, ?_, ?_⟩
    · intro j rest hsize _
      have := sizeJson_pos j
      omega
    · intro a rest hne hsize
      cases a with
      | nil => exact absurd rfl hne
      | cons j t =>
        have := sizeJson_pos j
        simp only [sizeArr] at hsize
        omega
    · intro o rest hne hsize
      cases o with
      | nil => exact absurd rfl hne
      | cons k v t =>
        have := sizeJson_pos v
        simp only [sizeObj] at hsize
        omega
  | succ fuel ih =>
    obtain ⟨ihv, iha, iho⟩ := ih
    refine ⟨?_, ?_, ?_⟩
    · intro j rest hsize hdelim
      cases j with
      | null => rfl
      | bool b =>
        cases b with
        | false => rfl
        | true => rfl
      | num n => exact parseVal_num n rest fuel hdelim
      | str s =>
        show parseVal (fuel + 1)
          (('\"' :: (escapeList s.data ++ ['\"'])) ++ rest) = _
        rw [List.cons_append, List.append_assoc, List.singleton_append,
          parseVal_cons, if_neg (by decide), if_neg (by decide),
          if_neg (by decide), if_pos rfl, parseStringRest_escape s rest]
      | arr a =>
        cases a with
        | nil => rfl
        | cons j t =>
          obtain ⟨c, cs, hcons, hc⟩ := encodeArr_cons_head j t
          have hsz : sizeArr (JsonArr.cons j t) ≤ fuel := by
            simp only [sizeJson] at hsize
            omega
          show parseVal (fuel + 1)
            (('[' :: (encodeArr (JsonArr.cons j t) ++ [']'])) ++ rest) = _
          rw [List.cons_append, List.append_assoc, List.singleton_append, hcons,
            List.cons_append, parseVal_cons, if_neg (by decide),
            if_neg (by decide), if_neg (by decide), if_neg (by decide),
            if_neg (by decide), if_neg (by decide), if_pos rfl]
          show (if c = ']' then some (Json.arr JsonArr.nil, cs ++ ']' :: rest)
                else
                  match parseArrItems fuel (c :: (cs ++ ']' :: rest)) with
                  | some (a2, rest3) => some (Json.arr a2, rest3)
                  | none => none) = some (Json.arr (JsonArr.cons j t), rest)
          rw [if_neg hc, ← List.cons_append, ← hcons,
            iha (JsonArr.cons j t) rest (by simp) hsz]
      | obj o =>
        cases o with
        | nil => rfl
        | cons k v t =>
          obtain ⟨cs, hcons⟩ := encodeObj_cons_head k v t
          have hsz : sizeObj (JsonObj.cons k v t) ≤ fuel := by
            simp only [sizeJson] at hsize
            omega
          show parseVal (fuel + 1)
            ((lbrace :: (encodeObj (JsonObj.cons k v t) ++ [rbrace])) ++ rest) = _
          rw [List.cons_append, List.append_assoc, List.singleton_append, hcons,
            List.cons_append, parseVal_cons, if_neg (by decide),
            if_neg (by decide), if_neg (by decide), if_neg (by decide),
            if_neg (by decide), if_neg (by decide), if_neg (by decide),
            if_pos rfl]
          show (if ('\"' : Char) = rbrace then
                  some (Json.obj JsonObj.nil, cs ++ rbrace :: rest)
                else
                  match parseObjItems fuel ('\"' :: (cs ++ rbrace :: rest)) with
                  | some (o2, rest3) => some (Json.obj o2, rest3)
                  | none => none) = some (Json.obj (JsonObj.cons k v t), rest)
          rw [if_neg (by decide), ← List.cons_append, ← hcons,
            iho (JsonObj.cons k v t) rest (by simp) hsz]
    · intro a rest hne hsize
      cases a with
      | nil => exact absurd rfl hne
      | cons j t =>
        cases t with
        | nil =>
          have hszj : sizeJson j ≤ fuel := by
            simp only [sizeArr] at hsize
            omega
          show parseArrItems (fuel + 1) (encodeJson j ++ ']' :: rest) = _
          rw [parseArrItems_succ, ihv j (']' :: rest) hszj
            (numDelim_of_head j ']' rest (by decide))]
          rfl
        | cons j2 t2 =>
          have hszj : sizeJson j ≤ fuel := by
            simp only [sizeArr] at hsize
            omega
          have hszt : sizeArr (JsonArr.cons j2 t2) ≤ fuel := by
            simp only [sizeArr] at hsize ⊢
            omega
          show parseArrItems (fuel + 1)
            ((encodeJson j ++ ((',' :: encodeArr (JsonArr.cons j2 t2)))) ++
              ']' :: rest) = _
          rw [List.append_assoc, List.cons_append, parseArrItems_succ,
            ihv j (',' :: (encodeArr (JsonArr.cons j2 t2) ++ ']' :: rest)) hszj
              (numDelim_of_head j ',' _ (by decide))]
          show (if (',' : Char) = ',' then
                  match parseArrItems fuel
                      (encodeArr (JsonArr.cons j2 t2) ++ ']' :: rest) with
                  | some (a2, rest3) => some (JsonArr.cons j a2, rest3)
                  | none => none
                else if (',' : Char) = ']' then
                  some (JsonArr.cons j JsonArr.nil,
                    encodeArr (JsonArr.cons j2 t2) ++ ']' :: rest)
                else none) = some (JsonArr.cons j (JsonArr.cons j2 t2), rest)
          rw [if_pos rfl, iha (JsonArr.cons j2 t2) rest (by simp) hszt]
    · intro o rest hne hsize
      cases o with
      | nil => exact absurd rfl hne
      | cons k v t =>
        have hszv : sizeJson v ≤ fuel := by
          simp only [sizeObj] at hsize
          omega
        cases t with
        | nil =>
          show parseObjItems (fuel + 1)
            ((encodeString k ++ ':' :: encodeJson v) ++ rbrace :: rest) = _
          rw [List.append_assoc, List.cons_append]
          show parseObjItems (fuel + 1)
            (('\"' :: (escapeList k.data ++ ['\"'])) ++
              (':' :: (encodeJson v ++ rbrace :: rest))) = _
          rw [List.cons_append, List.append_assoc, List.singleton_append,
            parseObjItems_succ]
          show (if ('\"' : Char) = '\"' then
                  match parseStringRest
                      (escapeList k.data ++
                        '\"' :: (':' :: (encodeJson v ++ rbrace :: rest))) with
                  | none => none
                  | some (k2, rest2) =>
                    match rest2 with
                    | ':' :: rest3 =>
                      match parseVal fuel rest3 with
                      | none => none
                      | some (v2, rest4) =>
                        match rest4 with
                        | [] => none
                        | r :: rest5 =>
                          if r = ',' then
                            match parseObjItems fuel rest5 with
                            | some (o2, rest6) => some (JsonObj.cons k2 v2 o2, rest6)
                            | none => none
                          else if r = rbrace then
                            some (JsonObj.cons k2 v2 JsonObj.nil, rest5)
                          else none
                    | _ => none
                else none) = some (JsonObj.cons k v JsonObj.nil, rest)
          rw [if_pos rfl, parseStringRest_escape k
            (':' :: (encodeJson v ++ rbrace :: rest))]
          show (match parseVal fuel (encodeJson v ++ rbrace :: rest) with
                | none => none
                | some (vv, rest4) =>
                  match rest4 with
                  | [] => none
                  | r :: rest5 =>
                    if r = ',' then
                      match parseObjItems fuel rest5 with
                      | some (o2, rest6) => some (JsonObj.cons k vv o2, rest6)
                      | none => none
                    else if r = rbrace then
                      some (JsonObj.cons k vv JsonObj.nil, rest5)
                    else none) = some (JsonObj.cons k v JsonObj.nil, rest)
          rw [ihv v (rbrace :: rest) hszv
            (numDelim_of_head v rbrace rest (by decide))]
          rfl
        | cons k2 v2 t2 =>
          have hszt : sizeObj (JsonObj.cons k2 v2 t2) ≤ fuel := by
            simp only [sizeObj] at hsize ⊢
            omega
          show parseObjItems (fuel + 1)
            ((((encodeString k ++ (':' :: encodeJson v)) ++
              (',' :: encodeObj (JsonObj.cons k2 v2 t2))) ++ rbrace :: rest)) = _
          rw [List.append_assoc, List.append_assoc, List.cons_append,
            List.cons_append]
          show parseObjItems (fuel + 1)
            (('\"' :: (escapeList k.data ++ ['\"'])) ++
              (':' :: (encodeJson v ++
                (',' :: (encodeObj (JsonObj.cons k2 v2 t2) ++ rbrace :: rest))))) = _
          rw [List.cons_append, List.append_assoc, List.singleton_append,
            parseObjItems_succ]
          show (if ('\"' : Char) = '\"' then
                  match parseStringRest
                      (escapeList k.data ++
                        '\"' :: (':' :: (encodeJson v ++
                          (',' :: (encodeObj (JsonObj.cons k2 v2 t2) ++
                            rbrace :: rest))))) with
                  | none => none
                  | some (kk, rest2) =>
                    match rest2 with
                    | ':' :: rest3 =>
                      match parseVal fuel rest3 with
                      | none => none
                      | some (vv, rest4) =>
                        match rest4 with
                        | [] => none
                        | r :: rest5 =>
                          if r = ',' then
                            match parseObjItems fuel rest5 with
                            | some (o2, rest6) => some (JsonObj.cons kk vv o2, rest6)
                            | none => none
                          else if r = rbrace then
                            some (JsonObj.cons kk vv JsonObj.nil, rest5)
                          else none
                    | _ => none
                else none) = some (JsonObj.cons k v (JsonObj.cons k2 v2 t2), rest)
          rw [if_pos rfl, parseStringRest_escape k
            (':' :: (encodeJson v ++
              (',' :: (encodeObj (JsonObj.cons k2 v2 t2) ++ rbrace :: rest))))]
          show (match parseVal fuel
                  (encodeJson v ++
                    (',' :: (encodeObj (JsonObj.cons k2 v2 t2) ++
                      rbrace :: rest))) with
                | none => none
                | some (vv, rest4) =>
                  match rest4 with
                  | [] => none
                  | r :: rest5 =>
                    if r = ',' then
                      match parseObjItems fuel rest5 with
                      | some (o2, rest6) => some (JsonObj.cons k vv o2, rest6)
                      | none => none
                    else if r = rbrace then
                      some (JsonObj.cons k vv JsonObj.nil, rest5)
                    else none) =
            some (JsonObj.cons k v (JsonObj.cons k2 v2 t2), rest)
          rw [ihv v (',' :: (encodeObj (JsonObj.cons k2 v2 t2) ++ rbrace :: rest))
            hszv (numDelim_of_head v ',' _ (by decide))]
          show (if (',' : Char) = ',' then
                  match parseObjItems fuel
                      (encodeObj (JsonObj.cons k2 v2 t2) ++ rbrace :: rest) with
                  | some (o2, rest6) => some (JsonObj.cons k v o2, rest6)
                  | none => none
                else if (',' : Char) = rbrace then
                  some (JsonObj.cons k v JsonObj.nil,
                    encodeObj (JsonObj.cons k2 v2 t2) ++ rbrace :: rest)
                else none) = some (JsonObj.cons k v (JsonObj.cons k2 v2 t2), rest)
          rw [if_pos rfl, iho (JsonObj.cons k2 v2 t2) rest (by simp) hszt]

theorem parseJson_stringify (j : Json) : parseJson (stringify j) = some j := by
  unfold parseJson stringify
  have hdata : (String.mk (encodeJson j)).data = encodeJson j := rfl
  rw [hdata]
  have h := (parse_encode_round ((encodeJson j).length + 1)).1 j []
    (by have := sizeJson_le_encode j; omega)
    (by cases j <;> simp [NumDelim])
  rw [List.append_nil] at h
  rw [h]

/-- C10: round trip through the broker helpers: every non-string message value
representable in the modelled JSON fragment is structured-encoded by
`publishToQueue` and decoded back by `consumeFromQueue`'s decode step to an
equal value, which is what the handler receives as its first argument; a string
message is passed through publishing unchanged; and a payload that fails
structured decoding is delivered to the handler as the raw string rather than
raising an error. -/
theorem publish_consume_roundtrip (m : Json) (s p : String)
    (hm : isStrJson m = false) :
    decodeContent (serializeMessage m) = m
    ∧ serializeMessage (Json.str s) = s
    ∧ (parseJson p = none → decodeContent p = Json.str p) := by
  refine ⟨?_, rfl, ?_⟩
  · cases m with
    | str t => simp [isStrJson] at hm
    | null => simp [serializeMessage, decodeContent, parseJson_stringify]
    | bool b => simp [serializeMessage, decodeContent, parseJson_stringify]
    | num n => simp [serializeMessage, decodeContent, parseJson_stringify]
    | arr a => simp [serializeMessage, decodeContent, parseJson_stringify]
    | obj o => simp [serializeMessage, decodeContent, parseJson_stringify]
  · intro hp
    unfold decodeContent
    rw [hp]

/-- Witness for C10: a concrete two-field message object round-trips, a string
passes through, and a non-JSON payload falls back to the raw string. -/
theorem publish_consume_roundtrip_witness :
    decodeContent (serializeMessage (Json.obj (JsonObj.cons "correlationId"
      (Json.str "r-1") (JsonObj.cons "n" (Json.num 42) JsonObj.nil)))) =
      Json.obj (JsonObj.cons "correlationId" (Json.str "r-1")
        (JsonObj.cons "n" (Json.num 42) JsonObj.nil))
    ∧ serializeMessage (Json.str "hello") = "hello"
    ∧ decodeContent "not json" = Json.str "not json" := by
  have h := publish_consume_roundtrip (Json.obj (JsonObj.cons "correlationId"
    (Json.str "r-1") (JsonObj.cons "n" (Json.num 42) JsonObj.nil)))
    "hello" "not json" (by decide)
  exact ⟨h.1, h.2.1, h.2.2 (by decide)⟩
